import Mathlib

/-!
Verification of the TF_Intro notebook (vz415/Tensorflow_Intro).

The notebook builds, in three code cells, a sigmoid-activated linear
model over the credit-card-default dataset: a placeholder for the
input, trainable variables `W` and `b`, the output `sigmoid(x·W + b)`,
a cost `reduce_mean(-reduce_sum(y_labels * log(output)))`, a
gradient-descent optimizer with learning rate 0.0001, and (in the
first two cells) an argmax-based accuracy node.  The development below
embeds these computations over the reals, the pandas preprocessing
over lists, and the cell and session structure as explicit traces, and
proves the claims of the specification about them.
-/

namespace TFIntro

/-- The activation `sigmoid(z) = 1 / (1 + exp(-z))` used by `tf.sigmoid`. -/
noncomputable def sigmoid (z : ℝ) : ℝ := 1 / (1 + Real.exp (-z))

/-- Dot product of a row of inputs with the single column of `W`
(`num_outputs = 1`), i.e. `tf.matmul(x, W)` for one row producing the
single entry of the result. -/
noncomputable def matmulRow (x W : List ℝ) : ℝ := (List.zipWith (· * ·) x W).sum

/-- Cell 4 (`logs/1`): `y_output = tf.sigmoid(tf.matmul(x_input, W) + b)` (named sigmoid). -/
noncomputable def y_output (x W : List ℝ) (b : ℝ) : ℝ := sigmoid (matmulRow x W + b)

/-- Cell 7 (`logs/3`): `linear_output = tf.add(tf.matmul(x, W), b)`. -/
noncomputable def linear_output (x W : List ℝ) (b : ℝ) : ℝ := matmulRow x W + b

/-- Cell 7: `logits = tf.sigmoid(linear_output)` (named logit). -/
noncomputable def logits (x W : List ℝ) (b : ℝ) : ℝ := sigmoid (linear_output x W b)

/-- Cell 10 (`logs/4`): `tf.cast(W, tf.float32)`; over the real-valued
model the cast is the identity on each entry. -/
def castFloat32 (r : ℝ) : ℝ := r

/-- Cell 10: `linear_output = tf.add(tf.matmul(x, tf.cast(W, tf.float32)), b)`
followed by `logits = tf.sigmoid(linear_output)`. -/
noncomputable def logitsCast (x W : List ℝ) (b : ℝ) : ℝ :=
  sigmoid (matmulRow x (W.map castFloat32) + b)

/-- Written from the words of the specification, for comparison with
the three source-derived outputs: the predicted output is
`sigmoid(x·W + b)` with `sigmoid(z) = 1 / (1 + exp(-z))`. -/
noncomputable def specPredictedOutput (x W : List ℝ) (b : ℝ) : ℝ :=
  1 / (1 + Real.exp (-((List.zipWith (· * ·) x W).sum + b)))

/-- Embedding of `tf.reduce_sum` with no axis argument: the sum of all
entries. -/
noncomputable def reduce_sum (l : List ℝ) : ℝ := l.sum

/-- Embedding of `tf.reduce_mean` applied to a scalar tensor: the mean
of a single value is that value. -/
def reduce_mean_scalar (r : ℝ) : ℝ := r

/-- One entry of the elementwise product `y_labels * tf.log(output)`. -/
noncomputable def labelLogTerm (y yhat : ℝ) : ℝ := y * Real.log yhat

/-- The cost of all three variants, over a batch given as the list of
label entries and the list of predicted entries (the tensors are
`[None, 1]`, so one real per example):
`cost = tf.reduce_mean(-tf.reduce_sum(y_labels * tf.log(output)))`. -/
noncomputable def cost (yLabels yHat : List ℝ) : ℝ :=
  reduce_mean_scalar (-(reduce_sum (List.zipWith labelLogTerm yLabels yHat)))

/-- Embedding of `tf.argmax` on one row: index of the first maximal
entry.  `argmaxFrom i best bestV l` scans `l` whose head sits at index
`i`, with current best index `best` holding value `bestV`. -/
noncomputable def argmaxFrom : ℕ → ℕ → ℝ → List ℝ → ℕ
  | _, best, _, [] => best
  | i, best, bestV, v :: rest =>
    if bestV < v then argmaxFrom (i + 1) i v rest
    else argmaxFrom (i + 1) best bestV rest

/-- Embedding of `tf.argmax(t, 1)` applied to one row of `t`. -/
noncomputable def argmaxRow : List ℝ → ℕ
  | [] => 0
  | v :: rest => argmaxFrom 1 0 v rest

/-- Embedding of
`correct_prediction = tf.equal(tf.argmax(output, 1), tf.argmax(y_labels, 1))`,
one Boolean per example row. -/
noncomputable def correct_prediction (preds labelRows : List (List ℝ)) : List Bool :=
  List.zipWith (fun p l => argmaxRow p == argmaxRow l) preds labelRows

/-- Embedding of
`accuracy = tf.reduce_mean(tf.cast(correct_prediction, tf.float32))`:
the mean of the 0/1 casts of the Booleans. -/
noncomputable def accuracy (preds labelRows : List (List ℝ)) : ℝ :=
  ((correct_prediction preds labelRows).map
    (fun c => if c then (1:ℝ) else 0)).sum /
    ((correct_prediction preds labelRows).length : ℝ)

/-- The kinds of nodes the graph cells of the notebook construct. -/
inductive NodeKind
  | placeholderX   -- tf.placeholder(tf.float32, [None, num_features]) named inputs
  | varW           -- tf.Variable(tf.truncated_normal(...)) named W
  | varB           -- tf.Variable(tf.zeros([num_outputs])) named bias
  | castN          -- tf.cast(W, tf.float32) (third cell only)
  | matmulN        -- tf.matmul(x, W)
  | addBiasN       -- ... + b, or tf.add(..., b)
  | sigmoidN       -- tf.sigmoid(...)
  | placeholderY   -- tf.placeholder(tf.float32, [None, num_outputs], ...)
  | costN          -- tf.reduce_mean(-tf.reduce_sum(y_labels * tf.log(...)))
  | gdStepN        -- tf.train.GradientDescentOptimizer(lr).minimize(cost)
  | correctPredN   -- tf.equal(tf.argmax(...), tf.argmax(...))
  | accuracyN      -- tf.reduce_mean(tf.cast(correct_prediction, tf.float32))
  | summaryN       -- tf.summary.histogram / tf.summary.scalar
  | mergeN         -- tf.summary.merge_all()
  deriving DecidableEq

/-- One graph-construction cell of the notebook. -/
structure GraphVariant where
  resetsGraph : Bool        -- starts with tf.reset_default_graph()
  nodes : List NodeKind     -- nodes the cell constructs
  optimizerLR : ℚ           -- learning rate passed to GradientDescentOptimizer
  optimizerTarget : NodeKind -- the node passed to .minimize(...)
  initsVars : Bool          -- runs tf.global_variables_initializer()
  logDir : String           -- directory given to tf.summary.FileWriter
  optimizerRuns : ℕ         -- number of executed sess.run(optimizer, ...) calls

/-- The hyperparameter `epochs = 1000`. -/
def epochs : ℕ := 1000

/-- The cell writing to `./logs/1`. -/
def variantLogs1 : GraphVariant :=
  { resetsGraph := true
  , nodes := [.placeholderX, .varW, .varB, .matmulN, .addBiasN, .sigmoidN,
              .placeholderY, .costN, .gdStepN, .correctPredN, .accuracyN]
  , optimizerLR := 0.0001
  , optimizerTarget := .costN
  , initsVars := true
  , logDir := "./logs/1"
  , optimizerRuns := 0 }

/-- The cell writing to `./logs/3`. -/
def variantLogs3 : GraphVariant :=
  { resetsGraph := true
  , nodes := [.placeholderX, .varW, .varB, .matmulN, .addBiasN, .sigmoidN,
              .placeholderY, .costN, .gdStepN, .correctPredN, .accuracyN]
  , optimizerLR := 0.0001
  , optimizerTarget := .costN
  , initsVars := true
  , logDir := "./logs/3"
  , optimizerRuns := 0 }

/-- The cell writing to `./logs/4`: its Accuracy block is commented
out, and it is the only cell that runs a training loop. -/
def variantLogs4 : GraphVariant :=
  { resetsGraph := true
  , nodes := [.placeholderX, .varW, .varB, .castN, .matmulN, .addBiasN,
              .summaryN, .summaryN, .sigmoidN, .placeholderY, .costN,
              .summaryN, .gdStepN, .mergeN]
  , optimizerLR := 0.0001
  , optimizerTarget := .costN
  , initsVars := true
  , logDir := "./logs/4"
  , optimizerRuns := epochs }

/-- The graph-construction cells of the notebook, in order. -/
def graphVariants : List GraphVariant := [variantLogs1, variantLogs3, variantLogs4]

/-- The node chain named by the specification: placeholder, matmul,
add bias, sigmoid, cost, gradient-descent step. -/
def chainNodes : List NodeKind :=
  [.placeholderX, .matmulN, .addBiasN, .sigmoidN, .costN, .gdStepN]

/-- Running one graph cell against the current default graph: the cell
first calls `tf.reset_default_graph()` (when `resetsGraph`), then adds
its nodes. -/
def runVariant (g : List NodeKind) (v : GraphVariant) : List NodeKind :=
  (if v.resetsGraph then [] else g) ++ v.nodes

/-- Running the cells in order, recording for each one the pair of the
log directory and the graph contents at the moment `FileWriter`
exports it. -/
def exportsOf : List NodeKind → List GraphVariant → List (String × List NodeKind)
  | _, [] => []
  | g, v :: rest =>
    (v.logDir, runVariant g v) :: exportsOf (runVariant g v) rest

/-- The feeds of the only executed training loop:
`for e in range(epochs): sess.run(optimizer, feed_dict={x: X.as_matrix(), y_labels:Y})`.
Each iteration feeds the whole of `X` and `Y`. -/
def trainingFeeds (X Y : List (List ℝ)) : List (List (List ℝ) × List (List ℝ)) :=
  (List.range epochs).map (fun _ => (X, Y))

/-- The operations the sessions of the notebook execute. -/
inductive SessionOp
  | initVars                      -- sess.run(tf.global_variables_initializer())
  | optStep                       -- sess.run(optimizer, feed_dict=...)
  | writeGraphFile (dir : String) -- tf.summary.FileWriter(dir, sess.graph)
  | addGraphCall                  -- file_writer.add_graph(sess.graph)
  deriving DecidableEq

/-- The trainable state: the values held by the variables `W` and `b`. -/
structure TrainState where
  W : List ℝ
  b : ℝ

/-- Effect of a session operation on the trainable state, parameterized
by the values `init` set by the initializer and the framework-provided
gradient-descent update `gd` (the notebook never computes gradients
itself). -/
def applySessionOp (init : TrainState) (gd : TrainState → TrainState) :
    SessionOp → TrainState → TrainState
  | .initVars, _ => init
  | .optStep, s => gd s
  | .writeGraphFile _, s => s
  | .addGraphCall, s => s

/-- The session operations the notebook executes, in order: each of the
three cells initializes and exports, and the third runs the training
loop. -/
def notebookSessionOps : List SessionOp :=
  [.initVars, .writeGraphFile "./logs/1"] ++
  [.initVars, .writeGraphFile "./logs/3"] ++
  [.initVars, .writeGraphFile "./logs/4", .addGraphCall] ++
  (List.range epochs).map (fun _ => .optStep)

/-- The distinct values of a categorical column; `pd.get_dummies`
produces one dummy column per distinct value. -/
def distinctValues (col : List ℤ) : List ℤ := col.dedup

/-- The dummy indicators of a single value `v` against the dummy
columns `vals`: 1 in the column of `v`, 0 elsewhere. -/
def dummyRow (vals : List ℤ) (v : ℤ) : List ℕ :=
  vals.map (fun u => if v = u then 1 else 0)

/-- Embedding of `pd.get_dummies` restricted to one categorical column:
the column is replaced by one dummy column per distinct value. -/
def get_dummies_col (col : List ℤ) : List (List ℕ) :=
  col.map (dummyRow (distinctValues col))

/-- The columns passed to `pd.get_dummies` in the preprocessing cell. -/
def encodedColumns : List String :=
  ["SEX", "EDUCATION", "MARRIAGE", "PAY_0", "PAY_2", "PAY_3", "PAY_4",
   "PAY_5", "PAY_6"]

/-- Option-valued map over a list: fails when any element fails.  Used
for `pd.to_numeric`, which raises when any entry fails to parse. -/
def mapOption {α β : Type} (f : α → Option β) : List α → Option (List β)
  | [] => some []
  | a :: l =>
    match f a, mapOption f l with
    | some b, some bs => some (b :: bs)
    | _, _ => none

/-- A decimal digit of the integer parsing of `pd.to_numeric`. -/
def charDigit (c : Char) : Option ℕ :=
  if 48 ≤ c.toNat ∧ c.toNat ≤ 57 then some (c.toNat - 48) else none

/-- Digit-sequence accumulator for the integer parsing. -/
def parseNatAux : List Char → ℕ → Option ℕ
  | [], acc => some acc
  | c :: cs, acc =>
    match charDigit c with
    | some d => parseNatAux cs (10 * acc + d)
    | none => none

/-- Embedding of `pd.to_numeric` on one entry of this integer-valued
CSV: an optional minus sign followed by decimal digits, `none` when the
entry is not numeric. -/
def to_numeric_entry (s : String) : Option ℤ :=
  match s.data with
  | [] => none
  | '-' :: cs =>
    if cs.isEmpty then none else (parseNatAux cs 0).map (fun n => -(n : ℤ))
  | cs => (parseNatAux cs 0).map (fun n => (n : ℤ))

/-- Embedding of `defaults_df = defaults_df.apply(pd.to_numeric)`:
every entry of every row must parse to a number. -/
def toNumericTable (rows : List (List String)) : Option (List (List ℤ)) :=
  mapOption (fun r => mapOption to_numeric_entry r) rows

/-- Embedding of `defaults_df = defaults_df[defaults_df.EDUCATION != 0]`,
with `eduIdx` the position of the EDUCATION column. -/
def filterEducationValid (eduIdx : ℕ) (rows : List (List ℤ)) : List (List ℤ) :=
  rows.filter (fun r => r.getD eduIdx 0 != 0)

/-- Embedding of `Y = Y.values.reshape(29986, 1)`: fails unless `Y` has
exactly 29986 entries, and shapes them as a column of singleton rows. -/
def reshapeY (ys : List ℤ) : Option (List (List ℤ)) :=
  if ys.length = 29986 then some (ys.map (fun v => [v])) else none

/-- The names each cell after the preprocessing cell assigns, in
notebook order: the `len(list(X))` cell, the three graph cells, the
two hyperparameter cells, and the `Y.shape` cell. -/
def laterCellAssignedNames : List (List String) :=
  [ []
  , ["num_features", "num_outputs", "x_input", "W", "b", "y_output",
     "y_labels", "cost", "learning_rate", "optimizer",
     "correct_prediction", "accuracy", "sess", "file_writer"]
  , ["learning_rate"]
  , ["num_features", "num_outputs", "x", "W", "b", "linear_output",
     "logits", "y_labels", "cost", "optimizer", "correct_prediction",
     "accuracy", "sess", "file_writer"]
  , ["learning_rate", "epochs"]
  , ["num_features", "num_outputs", "x", "W", "b", "linear_output",
     "logits", "y_labels", "cost", "optimizer", "merged", "sess",
     "file_writer", "e"]
  , [] ]

lemma sigmoid_pos (z : ℝ) : 0 < sigmoid z := by
  have h : (0:ℝ) < 1 + Real.exp (-z) := by
    have := Real.exp_pos (-z); linarith
  exact div_pos one_pos h

lemma sigmoid_lt_one (z : ℝ) : sigmoid z < 1 := by
  have hexp := Real.exp_pos (-z)
  have h : (0:ℝ) < 1 + Real.exp (-z) := by linarith
  rw [sigmoid, div_lt_one h]
  linarith

/-- C1: in every graph variant the model output is the sigmoid-activated
linear model: for every input row `x`, weight column `W` and bias `b`,
the predicted output of each of the three variants equals
`sigmoid(x·W + b)` where `sigmoid(z) = 1 / (1 + exp(-z))`. -/
theorem variants_output_is_sigmoid_linear (x W : List ℝ) (b : ℝ) :
    y_output x W b = specPredictedOutput x W b ∧
    logits x W b = specPredictedOutput x W b ∧
    logitsCast x W b = specPredictedOutput x W b := by
  refine ⟨rfl, rfl, ?_⟩
  have hmap : W.map castFloat32 = W := List.map_id W
  simp only [logitsCast, hmap, specPredictedOutput, sigmoid, matmulRow]

lemma zipWith_labelLogTerm_set_zero (yLabels : List ℝ) :
    ∀ (yHat : List ℝ) (i : ℕ) (p : ℝ), yLabels.get? i = some 0 →
      (List.zipWith labelLogTerm yLabels (yHat.set i p)).sum =
      (List.zipWith labelLogTerm yLabels yHat).sum := by
  induction yLabels with
  | nil => intro yHat i p _; simp
  | cons y ys ih =>
    intro yHat i p hget
    cases yHat with
    | nil => simp
    | cons h hs =>
      cases i with
      | zero =>
        simp only [List.get?] at hget
        injection hget with hy
        subst hy
        simp [labelLogTerm]
      | succ j =>
        simp only [List.get?] at hget
        simp only [List.set, List.zipWith, List.sum_cons]
        rw [ih hs j p hget]

/-- C4: in every graph variant, `reduce_sum` with no axis yields a
scalar and `reduce_mean` of a scalar is that scalar, so the cost equals
the negative sum of `y * log(y_hat)` over all examples (a total, not a
per-example mean); and every example whose label is 0 contributes
exactly 0: replacing its predicted probability by anything leaves the
cost unchanged. -/
theorem cost_is_total_and_zero_labels_vacuous (yLabels yHat : List ℝ) :
    cost yLabels yHat = -((List.zipWith labelLogTerm yLabels yHat).sum) ∧
    ∀ (i : ℕ) (p : ℝ), yLabels.get? i = some 0 →
      cost yLabels (yHat.set i p) = cost yLabels yHat := by
  refine ⟨rfl, ?_⟩
  intro i p hget
  simp only [cost, reduce_mean_scalar, reduce_sum, neg_inj]
  exact zipWith_labelLogTerm_set_zero yLabels yHat i p hget

/-- Witness for C4 at a concrete batch: labels `[0, 1]`, predictions
`[1/2, 1/2]`, replacing the first prediction by `1/4`. -/
theorem cost_is_total_and_zero_labels_vacuous_witness :
    cost [0, 1] ([(1:ℝ)/2, 1/2].set 0 (1/4)) = cost [0, 1] [1/2, 1/2] :=
  (cost_is_total_and_zero_labels_vacuous [0, 1] [1/2, 1/2]).2 0 (1/4) rfl

lemma argmaxRow_singleton (v : ℝ) : argmaxRow [v] = 0 := rfl

lemma correct_prediction_all_true (preds labelRows : List (List ℝ))
    (hp : ∀ r ∈ preds, r.length = 1) (hl : ∀ r ∈ labelRows, r.length = 1) :
    ∀ c ∈ correct_prediction preds labelRows, c = true := by
  intro c hc
  rw [correct_prediction, List.mem_iff_get?] at hc
  obtain ⟨i, hi⟩ := hc
  rw [List.get?_zipWith] at hi
  cases hpi : preds.get? i with
  | none => rw [hpi] at hi; simp at hi
  | some p =>
    cases hli : labelRows.get? i with
    | none => rw [hpi, hli] at hi; simp at hi
    | some l =>
      rw [hpi, hli] at hi
      simp only [Option.map_some, Option.some.injEq] at hi
      have hp1 : p.length = 1 := hp p (List.get?_mem hpi)
      have hl1 : l.length = 1 := hl l (List.get?_mem hli)
      obtain ⟨pv, hpv⟩ : ∃ v, p = [v] := by
        cases p with
        | nil => simp at hp1
        | cons a t =>
          cases t with
          | nil => exact ⟨a, rfl⟩
          | cons b u => simp [List.length] at hp1
      obtain ⟨lv, hlv⟩ : ∃ v, l = [v] := by
        cases l with
        | nil => simp at hl1
        | cons a t =>
          cases t with
          | nil => exact ⟨a, rfl⟩
          | cons b u => simp [List.length] at hl1
      subst hpv hlv
      rw [← hi]
      simp [argmaxRow_singleton]

/-- C3: because `num_outputs = 1`, the argmax along axis 1 of both the
`[None, 1]` predictions and the `[None, 1]` labels is identically 0,
so `correct_prediction` is true for every row and the accuracy node
evaluates to exactly 1 on every nonempty batch, independent of the
predictions of the model. -/
theorem accuracy_always_one (preds labelRows : List (List ℝ))
    (hp : ∀ r ∈ preds, r.length = 1) (hl : ∀ r ∈ labelRows, r.length = 1)
    (hne : preds.length = labelRows.length) (hpos : 0 < preds.length) :
    (∀ r ∈ preds, argmaxRow r = 0) ∧ (∀ r ∈ labelRows, argmaxRow r = 0) ∧
    (∀ c ∈ correct_prediction preds labelRows, c = true) ∧
    accuracy preds labelRows = 1 := by
  have hall := correct_prediction_all_true preds labelRows hp hl
  refine ⟨?_, ?_, hall, ?_⟩
  · intro r hr
    obtain ⟨v, hv⟩ : ∃ v, r = [v] := by
      have h1 := hp r hr
      cases r with
      | nil => simp at h1
      | cons a t =>
        cases t with
        | nil => exact ⟨a, rfl⟩
        | cons b u => simp [List.length] at h1
    subst hv; exact argmaxRow_singleton v
  · intro r hr
    obtain ⟨v, hv⟩ : ∃ v, r = [v] := by
      have h1 := hl r hr
      cases r with
      | nil => simp at h1
      | cons a t =>
        cases t with
        | nil => exact ⟨a, rfl⟩
        | cons b u => simp [List.length] at h1
    subst hv; exact argmaxRow_singleton v
  · have hlen : (correct_prediction preds labelRows).length = preds.length := by
      simp [correct_prediction, hne]
    have hmap : ((correct_prediction preds labelRows).map
        (fun c => if c then (1:ℝ) else 0)) =
        List.replicate ((correct_prediction preds labelRows).map
          (fun c => if c then (1:ℝ) else 0)).length 1 := by
      apply List.eq_replicate_of_mem
      intro a ha
      obtain ⟨c, hc, hac⟩ := List.mem_map.mp ha
      rw [hall c hc] at hac
      simpa using hac.symm
    have hne0 : ((preds.length : ℝ)) ≠ 0 :=
      Nat.cast_ne_zero.mpr hpos.ne'
    rw [accuracy, hmap, List.sum_replicate, List.length_map, hlen]
    rw [nsmul_eq_mul, mul_one]
    exact div_self hne0

/-- Witness for C3: a one-row batch with prediction `[0.3]` and label `[1]`. -/
theorem accuracy_always_one_witness :
    accuracy [[(0.3:ℝ)]] [[(1:ℝ)]] = 1 :=
  (accuracy_always_one [[(0.3:ℝ)]] [[(1:ℝ)]]
    (by intro r hr; simp at hr; subst hr; rfl)
    (by intro r hr; simp at hr; subst hr; rfl)
    rfl (by decide)).2.2.2

/-- Counterexample to C2 as stated: the notebook has three graph cells,
not four, and the third one does not construct the accuracy node (its
Accuracy block is commented out). -/
theorem four_variants_all_with_accuracy_refuted :
    ¬ (graphVariants.length = 4 ∧
       ∀ v ∈ graphVariants, NodeKind.accuracyN ∈ v.nodes) := by
  intro h
  exact absurd h.1 (by decide)

/-- C2 (amended): the notebook contains three near-duplicate variations
of the computation graph; every variation constructs the chain
placeholder, matmul, add bias, sigmoid, cost, gradient-descent step;
the first two also construct the accuracy node, and the third does not
(its Accuracy block is commented out). -/
theorem three_variants_build_graph_chain :
    graphVariants.length = 3 ∧
    (chainNodes.all (variantLogs1.nodes.contains ·)) = true ∧
    (chainNodes.all (variantLogs3.nodes.contains ·)) = true ∧
    (chainNodes.all (variantLogs4.nodes.contains ·)) = true ∧
    NodeKind.accuracyN ∈ variantLogs1.nodes ∧
    NodeKind.accuracyN ∈ variantLogs3.nodes ∧
    NodeKind.accuracyN ∉ variantLogs4.nodes := by
  decide

/-- C7: every graph variant initializes global variables and exports
its graph with a `FileWriter` to `./logs/1`, `./logs/3`, `./logs/4`
respectively, and because each variant resets the default graph before
construction, whatever the initial default graph `g0` was, each export
contains exactly the nodes of that variant alone. -/
theorem each_export_contains_own_nodes (g0 : List NodeKind) :
    exportsOf g0 graphVariants =
      [("./logs/1", variantLogs1.nodes),
       ("./logs/3", variantLogs3.nodes),
       ("./logs/4", variantLogs4.nodes)] ∧
    variantLogs1.resetsGraph = true ∧ variantLogs3.resetsGraph = true ∧
    variantLogs4.resetsGraph = true ∧
    variantLogs1.initsVars = true ∧ variantLogs3.initsVars = true ∧
    variantLogs4.initsVars = true := by
  refine ⟨?_, rfl, rfl, rfl, rfl, rfl, rfl⟩
  simp [exportsOf, runVariant, graphVariants, variantLogs1, variantLogs3,
    variantLogs4]

/-- C5: every graph variant wires a gradient-descent optimizer with
learning rate 0.0001 to minimize the cost node; the only executed
training loop (in the `./logs/4` cell) runs the optimizer step exactly
`epochs = 1000` times, feeding the entire dataset on every iteration,
and terminates: its feed trace is exactly 1000 copies of `(X, Y)`. -/
theorem gd_optimizer_and_training_loop (X Y : List (List ℝ)) :
    variantLogs1.optimizerLR = 1/10000 ∧
    variantLogs3.optimizerLR = 1/10000 ∧
    variantLogs4.optimizerLR = 1/10000 ∧
    variantLogs1.optimizerTarget = NodeKind.costN ∧
    variantLogs3.optimizerTarget = NodeKind.costN ∧
    variantLogs4.optimizerTarget = NodeKind.costN ∧
    variantLogs1.optimizerRuns = 0 ∧
    variantLogs3.optimizerRuns = 0 ∧
    variantLogs4.optimizerRuns = epochs ∧
    epochs = 1000 ∧
    trainingFeeds X Y = List.replicate 1000 (X, Y) := by
  refine ⟨by norm_num [variantLogs1], by norm_num [variantLogs3],
    by norm_num [variantLogs4], rfl, rfl, rfl, rfl, rfl, rfl, rfl, ?_⟩
  simp [trainingFeeds, epochs]

/-- C9: the trainable state `W`, `b` is written only by variable
initialization and by the optimizer step: any executed session
operation that changes the state is `initVars` or `optStep`; moreover
the trace of the notebook contains exactly three initializations and
exactly `epochs` optimizer steps, and nothing else in it touches `W`
or `b`. -/
theorem only_init_and_optimizer_write_vars :
    (∀ (init : TrainState) (gd : TrainState → TrainState)
        (op : SessionOp) (s : TrainState),
      applySessionOp init gd op s ≠ s →
      op = SessionOp.initVars ∨ op = SessionOp.optStep) ∧
    notebookSessionOps.count SessionOp.initVars = 3 ∧
    notebookSessionOps.count SessionOp.optStep = epochs := by
  refine ⟨?_, ?_, ?_⟩
  · intro init gd op s hop
    cases op with
    | initVars => exact Or.inl rfl
    | optStep => exact Or.inr rfl
    | writeGraphFile dir => exact absurd rfl hop
    | addGraphCall => exact absurd rfl hop
  · rw [notebookSessionOps]
    simp only [List.count_append, List.map_const', List.length_range,
      List.count_replicate]
    rw [if_neg (by decide)]
    decide
  · rw [notebookSessionOps]
    simp only [List.count_append, List.map_const', List.length_range,
      List.count_replicate]
    rw [if_pos (by decide)]
    decide

/-- Witness for C9: running the initializer from a state it does not
equal changes the state, and the operation is indeed `initVars`. -/
theorem only_init_and_optimizer_write_vars_witness :
    SessionOp.initVars = SessionOp.initVars ∨
    SessionOp.initVars = SessionOp.optStep :=
  only_init_and_optimizer_write_vars.1 ⟨[1], 1⟩ id SessionOp.initVars ⟨[], 0⟩
    (by simp [applySessionOp])

lemma count_one_dummyRow (v : ℤ) :
    ∀ vals : List ℤ, (dummyRow vals v).count 1 = vals.count v := by
  intro vals
  induction vals with
  | nil => rfl
  | cons u us ih =>
    simp only [dummyRow, List.map_cons] at *
    rw [List.count_cons, List.count_cons, ih]
    by_cases h : v = u
    · simp [h]
    · simp [h, Ne.symm h]

/-- C6: preprocessing one-hot encodes exactly the nine categorical
columns SEX, EDUCATION, MARRIAGE, PAY_0, PAY_2, PAY_3, PAY_4, PAY_5,
PAY_6; a column is replaced by one dummy column per distinct value,
and every encoded row has exactly one dummy equal to 1 while all its
other dummies equal 0. -/
theorem one_hot_encoding_exactly_one :
    encodedColumns = ["SEX", "EDUCATION", "MARRIAGE", "PAY_0", "PAY_2",
      "PAY_3", "PAY_4", "PAY_5", "PAY_6"] ∧
    encodedColumns.length = 9 ∧
    ∀ (col : List ℤ), ∀ r ∈ get_dummies_col col,
      r.length = (distinctValues col).length ∧
      r.count 1 = 1 ∧ ∀ d ∈ r, d = 0 ∨ d = 1 := by
  refine ⟨rfl, rfl, ?_⟩
  intro col r hr
  obtain ⟨v, hv, hrv⟩ := List.mem_map.mp hr
  subst hrv
  refine ⟨by simp [dummyRow], ?_, ?_⟩
  · rw [count_one_dummyRow, distinctValues, List.count_dedup, if_pos hv]
  · intro d hd
    obtain ⟨u, _, hdu⟩ := List.mem_map.mp hd
    by_cases h : v = u
    · right; rw [← hdu, if_pos h]
    · left; rw [← hdu, if_neg h]

/-- Witness for C6 at the column `[5, 7, 5]`: its first encoded row is
`[1, 0]`, which has exactly one 1. -/
theorem one_hot_encoding_exactly_one_witness :
    ([(1:ℕ), 0].length = (distinctValues [(5:ℤ), 7, 5]).length) ∧
    (([(1:ℕ), 0]).count 1 = 1) :=
  ⟨(one_hot_encoding_exactly_one.2.2 [5, 7, 5] [1, 0] (by decide)).1,
   (one_hot_encoding_exactly_one.2.2 [5, 7, 5] [1, 0] (by decide)).2.1⟩

lemma mapOption_isSome {α β : Type} (f : α → Option β) :
    ∀ (l : List α) (bs : List β), mapOption f l = some bs →
      ∀ a ∈ l, (f a).isSome := by
  intro l
  induction l with
  | nil => intro bs _ a ha; simp at ha
  | cons x xs ih =>
    intro bs hbs a ha
    rw [mapOption] at hbs
    cases hfx : f x with
    | none => rw [hfx] at hbs; simp at hbs
    | some b =>
      cases hml : mapOption f xs with
      | none => rw [hfx, hml] at hbs; simp at hbs
      | some bs2 =>
        rcases List.mem_cons.mp ha with h | h
        · subst h; rw [hfx]; rfl
        · exact ih bs2 hml a h

/-- C8: after the cleaning phase, every retained row has EDUCATION ≠ 0
(and was a row of the table being filtered); success of
`pd.to_numeric` means every entry of every column parsed to a number;
a successful `reshape(29986, 1)` yields exactly 29986 rows of length
1; and no cell after the preprocessing cell assigns `X` or `Y`, so the
cleaned data is preserved by all later cells. -/
theorem cleaning_pipeline_invariants :
    (∀ (eduIdx : ℕ) (rows : List (List ℤ)),
      ∀ r ∈ filterEducationValid eduIdx rows,
        r.getD eduIdx 0 ≠ 0 ∧ r ∈ rows) ∧
    (∀ (rows : List (List String)) (nrows : List (List ℤ)),
      toNumericTable rows = some nrows →
      ∀ r ∈ rows, ∀ s ∈ r, (to_numeric_entry s).isSome) ∧
    (∀ (ys : List ℤ) (yr : List (List ℤ)), reshapeY ys = some yr →
      ys.length = 29986 ∧ yr.length = 29986 ∧ ∀ row ∈ yr, row.length = 1) ∧
    (laterCellAssignedNames.all
      (fun ns => !(ns.contains "X") && !(ns.contains "Y"))) = true := by
  refine ⟨?_, ?_, ?_, by decide⟩
  · intro eduIdx rows r hr
    have h := List.mem_filter.mp hr
    refine ⟨?_, h.1⟩
    have hb := h.2
    simpa [bne_iff_ne] using hb
  · intro rows nrows hsome r hr s hs
    have hrow := mapOption_isSome _ rows nrows hsome r hr
    obtain ⟨br, hbr⟩ := Option.isSome_iff_exists.mp hrow
    exact mapOption_isSome _ r br hbr s hs
  · intro ys yr h
    rw [reshapeY] at h
    split at h
    · rename_i hlen
      injection h with h
      subst h
      refine ⟨hlen, by simp [hlen], ?_⟩
      intro row hrow
      obtain ⟨v, _, hv⟩ := List.mem_map.mp hrow
      simp [← hv]
    · exact absurd h (by simp)

/-- Witness for C8: a two-row table filtered at EDUCATION index 0, the
numeric table `[["42"]]`, and a 29986-entry `Y`. -/
theorem cleaning_pipeline_invariants_witness :
    (([(1:ℤ)]).getD 0 0 ≠ 0 ∧ [(1:ℤ)] ∈ [[(1:ℤ)], [0]]) ∧
    (to_numeric_entry "42").isSome ∧
    (List.replicate 29986 (0:ℤ)).length = 29986 :=
  ⟨cleaning_pipeline_invariants.1 0 [[1], [0]] [1] (by decide),
   cleaning_pipeline_invariants.2.1 [["42"]] [[42]] (by decide) ["42"]
     (by decide) "42" (by decide),
   (cleaning_pipeline_invariants.2.2.1 (List.replicate 29986 0)
     (List.replicate 29986 [0])
     (by rw [reshapeY, if_pos (List.length_replicate 29986 (0:ℤ)),
           List.map_replicate])).1⟩

/-- C10: in exact real arithmetic the predicted output of every variant lies
strictly between 0 and 1, so the logarithm inside the cost is always
applied to a strictly positive argument and the cost expression is
well-defined for every input and weight assignment. -/
theorem output_in_open_unit_interval (x W : List ℝ) (b : ℝ) :
    (0 < y_output x W b ∧ y_output x W b < 1) ∧
    (0 < logits x W b ∧ logits x W b < 1) ∧
    (0 < logitsCast x W b ∧ logitsCast x W b < 1) :=
  ⟨⟨sigmoid_pos _, sigmoid_lt_one _⟩, ⟨sigmoid_pos _, sigmoid_lt_one _⟩,
    ⟨sigmoid_pos _, sigmoid_lt_one _⟩⟩

end TFIntro
